import Mathlib

/-!
Shallow embedding of `src/dragon_wizard_knight.py` ("Dragon, Wizard, Knight"),
a terminal rock-paper-scissors-style game: a human against the scripted
opponent Sally for a configurable number of standard rounds, with an optional
bonus phase (fourth move "druid", second opponent Bob).

Moves travel through the program as Python strings (single-character codes
"d" / "k" / "w" / "r"), so moves are `String` here as well.  Points are
Python ints and may go negative in the bonus phase, so they are `Int`.
Printing is cosmetic and omitted; round-outcome announcement strings are
replaced by small inductive outcome tags, except `get_final_winner` in
standard mode, whose returned *name* string is stored in `winner_final`
and later compared against the player's name to gate the bonus phase, so
there the actual strings matter and are kept.

Fallible operations (a Python dict lookup that can raise `KeyError`,
an input loop run on a finite script of inputs) return `Option`.
-/

/-- A participant: `Player.__init__` sets a name and zero points. -/
structure Player where
  name : String
  points : Int
deriving DecidableEq, Repr

/-- `Player.add_points`: `self.points += points_to_add`. -/
def Player.add_points (p : Player) (points_to_add : Int) : Player :=
  { p with points := p.points + points_to_add }

/-- `Player.reset_points`: `self.points = 0`. -/
def Player.reset_points (p : Player) : Player :=
  { p with points := 0 }

/-- `self.normal_moves = ['d', 'k', 'w']`. -/
def normal_moves : List String := ["d", "k", "w"]

/-- `self.bonus_moves = ['d', 'k', 'w', 'r']` (`'r'` is the druid). -/
def bonus_moves : List String := ["d", "k", "w", "r"]

/-- The rules dict `self.normal_rules = {'d': 'k', 'k': 'w', 'w': 'd'}`
(key = winner, value = loser); `none` models a missing key. -/
def normal_rules : String → Option String
  | "d" => some "k"
  | "k" => some "w"
  | "w" => some "d"
  | _ => none

/-! ## Human move input (`HumanPlayer.choose_move`)

The source builds `valid_inputs = "".join(allowed_moves) +
"".join(allowed_moves).upper()` (for the standard set the string
`"dkwDKW"`) and tests the typed string with `move in valid_inputs`.
Python's `in` on two strings is *substring containment*, which we model
faithfully. -/

/-- Python `str.lower` on one character (the game only handles ASCII move
codes, so the ASCII case mapping is the relevant fragment). -/
def py_lower_char (c : Char) : Char :=
  if 65 ≤ c.toNat ∧ c.toNat ≤ 90 then Char.ofNat (c.toNat + 32) else c

/-- Python `str.upper` on one character (ASCII fragment). -/
def py_upper_char (c : Char) : Char :=
  if 97 ≤ c.toNat ∧ c.toNat ≤ 122 then Char.ofNat (c.toNat - 32) else c

/-- Python `str.lower`. -/
def py_lower (s : String) : String :=
  String.mk (s.toList.map py_lower_char)

/-- Python `str.upper`. -/
def py_upper (s : String) : String :=
  String.mk (s.toList.map py_upper_char)

/-- `needle` occurs as a contiguous substring of `hay` (Python `needle in hay`
for strings; in particular the empty list occurs in everything). -/
def list_contains_sub (hay needle : List Char) : Bool :=
  (List.range (hay.length + 1)).any fun i => needle.isPrefixOf (hay.drop i)

/-- Python string containment `needle in hay`. -/
def str_contains_sub (hay needle : String) : Bool :=
  list_contains_sub hay.toList needle.toList

/-- `valid_inputs = "".join(allowed_moves) + "".join(allowed_moves).upper()`. -/
def valid_inputs (allowed_moves : List String) : String :=
  String.join allowed_moves ++ py_upper (String.join allowed_moves)

/-- The acceptance test of `HumanPlayer.choose_move`:
`move in valid_inputs` (Python substring containment). -/
def move_accepted (allowed_moves : List String) (move : String) : Bool :=
  str_contains_sub (valid_inputs allowed_moves) move

/-- What the spec calls a valid entry: a string matching one of the allowed
single-character move codes case-insensitively. -/
def matches_allowed_code (allowed_moves : List String) (move : String) : Bool :=
  allowed_moves.any fun m => py_lower move == m

/-- `HumanPlayer.choose_move` run on a finite script of typed inputs:
loop over the inputs, return the first accepted one lowercased
(`return move.lower()`); `none` models the loop still re-prompting after
the script is exhausted. -/
def choose_move (allowed_moves : List String) : List String → Option String
  | [] => none
  | move :: rest =>
    if move_accepted allowed_moves move then some (py_lower move)
    else choose_move allowed_moves rest

/-! ## Round-count input (`get_num_rounds`)

The source loops on `input`, tries `int(rounds_str)`, and returns the value
once it is `> 0`; a `ValueError` or a non-positive value re-prompts.  We model
Python's `int(str)`: optional surrounding whitespace, an optional single sign,
then a non-empty digit sequence in which `_` may appear only between digits. -/

/-- Split a character list at every underscore (pieces may be empty). -/
def split_underscores : List Char → List (List Char)
  | [] => [[]]
  | c :: rest =>
    if c = '_' then [] :: split_underscores rest
    else
      match split_underscores rest with
      | [] => [[c]]
      | p :: ps => (c :: p) :: ps

/-- The digit part of a Python int literal: non-empty groups of ASCII digits
separated by single underscores (no leading/trailing/doubled underscore). -/
def ok_digit_seq (cs : List Char) : Bool :=
  (split_underscores cs).all fun p => !p.isEmpty && p.all Char.isDigit

/-- Numeric value of a digit sequence, skipping underscores. -/
def digit_seq_val (cs : List Char) : Nat :=
  cs.foldl (fun acc c => if c = '_' then acc else acc * 10 + (c.toNat - 48)) 0

/-- The characters Python's `int(str)` strips from both ends
(the ASCII whitespace fragment). -/
def is_py_space (c : Char) : Bool :=
  c = ' ' ∨ c = '\t' ∨ c = '\n' ∨ c = '\r' ∨ c.toNat = 11 ∨ c.toNat = 12

/-- Strip leading and trailing whitespace. -/
def strip_spaces (cs : List Char) : List Char :=
  ((cs.dropWhile is_py_space).reverse.dropWhile is_py_space).reverse

/-- Python's `int(s)` on a string: `none` models the `ValueError`. -/
def python_int (s : String) : Option Int :=
  match strip_spaces s.toList with
  | '+' :: rest => if ok_digit_seq rest then some (digit_seq_val rest) else none
  | '-' :: rest => if ok_digit_seq rest then some (-(digit_seq_val rest : Int)) else none
  | rest => if ok_digit_seq rest then some (digit_seq_val rest) else none

/-- `DragonWizardKnightGame.get_num_rounds` run on a finite script of typed
inputs: keep re-prompting past `ValueError`s (`except ValueError`) and past
non-positive values, return the first positive parsed integer; `none` models
the loop still re-prompting after the script is exhausted. -/
def get_num_rounds : List String → Option Int
  | [] => none
  | s :: rest =>
    match python_int s with
    | some n => if n > 0 then some n else get_num_rounds rest
    | none => get_num_rounds rest

/-! ## Standard-round resolver (`get_round_winner`) -/

/-- Which announcement `get_round_winner` makes (the exact message text is
cosmetic; the spec's outcome set is {human wins, opponent wins, tie}). -/
inductive RoundOutcome where
  | tie
  | human
  | robot
deriving DecidableEq, Repr

/-- `DragonWizardKnightGame.get_round_winner`: tie check, then
`self.normal_rules[p_move] == r_move` (a dict *subscript*: `none` models the
`KeyError` raised when `p_move` is not a key), else the robot wins.
Returns the outcome together with the updated player, robot and tie counter
(the source mutates them in place). -/
def get_round_winner (p_move r_move : String) (player robot : Player)
    (tie_points : Nat) : Option (RoundOutcome × Player × Player × Nat) :=
  if p_move = r_move then
    some (.tie, player, robot, tie_points + 1)
  else
    match normal_rules p_move with
    | none => none
    | some loser =>
      if loser = r_move then
        some (.human, player.add_points 1, robot, tie_points)
      else
        some (.robot, player, robot.add_points 1, tie_points)

/-! ## Bonus-round resolver (`get_bonus_winner`) -/

/-- Which announcement `get_bonus_winner` makes. -/
inductive BonusOutcome where
  | human_druid
  | robot_druid
  | both_druid
  | tie
  | human_win
  | robot_win
deriving DecidableEq, Repr

/-- `DragonWizardKnightGame.get_bonus_winner`: the if/elif chain of the
source — one-sided druid (±2), both druid (−2 each), standard tie, then
`p_move in self.normal_rules and self.normal_rules[p_move] == r_move`
(dict membership plus lookup — total, no `KeyError` possible here),
else the robot wins.  Returns the outcome with the updated state. -/
def get_bonus_winner (p_move r_move : String) (player robot : Player)
    (tie_points : Nat) : BonusOutcome × Player × Player × Nat :=
  if p_move = "r" ∧ r_move ≠ "r" then
    (.human_druid, player.add_points 2, robot.add_points (-2), tie_points)
  else if p_move ≠ "r" ∧ r_move = "r" then
    (.robot_druid, player.add_points (-2), robot.add_points 2, tie_points)
  else if p_move = "r" ∧ r_move = "r" then
    (.both_druid, player.add_points (-2), robot.add_points (-2), tie_points)
  else if p_move = r_move then
    (.tie, player, robot, tie_points + 1)
  else if (normal_rules p_move).isSome ∧ normal_rules p_move = some r_move then
    (.human_win, player.add_points 1, robot, tie_points)
  else
    (.robot_win, player, robot.add_points 1, tie_points)

/-! ## Final-winner determination (`get_final_winner`) -/

/-- `get_final_winner(is_bonus_round=False)`: the winner *name* that is
stored into `self.winner_final` (`sally.name`, `player.name`, or
`'no one'`). -/
def get_final_winner_standard (player sally : Player) : String :=
  if sally.points > player.points then sally.name
  else if player.points > sally.points then player.name
  else "no one"

/-- The bonus-game check in `run`:
`if self.winner_final == self.player.name: self.run_bonus_game()`.
`true` iff the bonus phase is entered. -/
def bonus_phase_entered (player sally : Player) : Bool :=
  get_final_winner_standard player sally == player.name

/-- Who `get_final_winner(is_bonus_round=True)` declares. -/
inductive BonusFinal where
  | sally
  | bob
  | human
  | sally_and_bob
  | no_one
deriving DecidableEq, Repr

/-- `get_final_winner(is_bonus_round=True)`: the elif chain on the three
point totals `p_pts` (human), `s_pts` (Sally), `b_pts` (Bob). -/
def get_final_winner_bonus (p_pts s_pts b_pts : Int) : BonusFinal :=
  if s_pts > p_pts ∧ s_pts > b_pts then .sally
  else if b_pts > s_pts ∧ b_pts > p_pts then .bob
  else if p_pts > s_pts ∧ p_pts > b_pts then .human
  else if s_pts > p_pts ∧ b_pts > p_pts then .sally_and_bob
  else .no_one

/-! ## Game state and round loops -/

/-- The mutable attributes of `DragonWizardKnightGame` (the rules tables are
constants and kept outside). `bob` is `None` until the bonus phase. -/
structure GameState where
  player : Player
  sally : Player
  bob : Option Player
  tie_points : Nat
  winner_final : String
  current_round : Nat
  rounds_total : Int
deriving DecidableEq, Repr

/-- `play_standard_round`, given the two moves of the round: bump
`current_round`, resolve via `get_round_winner`, store the updated
player/Sally/tie state.  `none` models the uncaught `KeyError`. -/
def play_standard_round (p_move r_move : String) (st : GameState) :
    Option GameState :=
  match get_round_winner p_move r_move st.player st.sally st.tie_points with
  | none => none
  | some (_, pl, sa, t) =>
    some { st with
      current_round := st.current_round + 1
      player := pl
      sally := sa
      tie_points := t }

/-- The standard-phase loop `for i in range(self.rounds_total):
self.play_standard_round()`, run on a script of move pairs (human move,
Sally move), one pair per round. -/
def run_standard_rounds : List (String × String) → GameState → Option GameState
  | [], st => some st
  | (p, r) :: rest, st =>
    match play_standard_round p r st with
    | none => none
    | some st2 => run_standard_rounds rest st2

/-- The state-resetting setup of `run_bonus_game`: reset the human's and
Sally's points and the tie counter, create Bob, prompt for a fresh round
total (`get_num_rounds` on its own input script), restart the round index.
`none` models the setup still waiting at the round-count prompt. -/
def run_bonus_setup (st : GameState) (round_inputs : List String) :
    Option GameState :=
  match get_num_rounds round_inputs with
  | none => none
  | some n =>
    some { st with
      player := st.player.reset_points
      sally := st.sally.reset_points
      tie_points := 0
      bob := some { name := "Bob", points := 0 }
      rounds_total := n
      current_round := 0 }

/-! ## Helper lemmas -/

/-- `get_num_rounds` only ever returns a positive integer. -/
theorem get_num_rounds_pos :
    ∀ (inputs : List String) (n : Int), get_num_rounds inputs = some n → 0 < n := by
  intro inputs
  induction inputs with
  | nil => intro n h; simp [get_num_rounds] at h
  | cons s rest ih =>
    intro n h
    unfold get_num_rounds at h
    split at h
    next m hps =>
      split at h
      next hm => injection h with h; omega
      next hm => exact ih n h
    next hps => exact ih n h

/-- A standard round on moves from the allowed set never fails, advances the
round counter by one, changes exactly one of the three counters (human
points, Sally points, tie counter) by exactly one, and leaves the rest of
the game state alone. -/
theorem play_standard_round_spec :
    ∀ a b, a ∈ normal_moves → b ∈ normal_moves → ∀ st : GameState,
    ∃ st2, play_standard_round a b st = some st2 ∧
      st2.current_round = st.current_round + 1 ∧
      st2.player.name = st.player.name ∧ st2.sally.name = st.sally.name ∧
      st2.winner_final = st.winner_final ∧
      st2.rounds_total = st.rounds_total ∧ st2.bob = st.bob ∧
      ((st2.player.points = st.player.points + 1 ∧
          st2.sally.points = st.sally.points ∧
          st2.tie_points = st.tie_points) ∨
       (st2.player.points = st.player.points ∧
          st2.sally.points = st.sally.points + 1 ∧
          st2.tie_points = st.tie_points) ∨
       (st2.player.points = st.player.points ∧
          st2.sally.points = st.sally.points ∧
          st2.tie_points = st.tie_points + 1)) := by
  intro a b ha hb st
  fin_cases ha <;> fin_cases hb <;>
    exact ⟨_, rfl, by simp [play_standard_round, get_round_winner, normal_rules,
      Player.add_points]⟩

/-- Running the standard-phase loop on a script of valid move pairs never
fails, performs one round per script entry, conserves
`player points + sally points + ties`, and preserves the rest of the
game state. -/
theorem run_standard_rounds_spec :
    ∀ (moves : List (String × String)),
    (∀ m ∈ moves, m.1 ∈ normal_moves ∧ m.2 ∈ normal_moves) →
    ∀ st : GameState,
    ∃ st2, run_standard_rounds moves st = some st2 ∧
      st2.current_round = st.current_round + moves.length ∧
      st2.player.points + st2.sally.points + (st2.tie_points : Int) =
        st.player.points + st.sally.points + (st.tie_points : Int) +
          moves.length ∧
      st2.player.name = st.player.name ∧ st2.sally.name = st.sally.name ∧
      st2.winner_final = st.winner_final ∧
      st2.rounds_total = st.rounds_total ∧ st2.bob = st.bob := by
  intro moves
  induction moves with
  | nil =>
    intro _ st
    exact ⟨st, rfl, by simp, by simp, rfl, rfl, rfl, rfl, rfl⟩
  | cons m rest ih =>
    intro hmem st
    obtain ⟨h1, h2⟩ := hmem m (List.mem_cons_self m rest)
    obtain ⟨st1, hst1, hcr, hpn, hsn, hwf, hrt, hbob, hdelta⟩ :=
      play_standard_round_spec m.1 m.2 h1 h2 st
    obtain ⟨st2, hst2, hcr2, hsum2, hpn2, hsn2, hwf2, hrt2, hbob2⟩ :=
      ih (fun x hx => hmem x (List.mem_cons_of_mem m hx)) st1
    refine ⟨st2, ?_, ?_, ?_, ?_, ?_, ?_, ?_, ?_⟩
    · show run_standard_rounds (m :: rest) st = some st2
      unfold run_standard_rounds
      rw [hst1]
      exact hst2
    · simp only [List.length_cons]
      omega
    · simp only [List.length_cons]
      push_cast
      rcases hdelta with ⟨e1, e2, e3⟩ | ⟨e1, e2, e3⟩ | ⟨e1, e2, e3⟩ <;> omega
    · rw [hpn2, hpn]
    · rw [hsn2, hsn]
    · rw [hwf2, hwf]
    · rw [hrt2, hrt]
    · rw [hbob2, hbob]

/-! ## Claim theorems -/

/-- C1: refuted on the code. The spec claims every string not matching an
allowed single-character code case-insensitively (explicitly including ""
and "dk") is rejected and re-prompted.  In the source the acceptance test
is the Python expression `move in valid_inputs` on the string "dkwDKW",
which is *substring* containment: neither "dk" nor "" matches an allowed
code, yet both are accepted, with `choose_move` returning them (lowercased)
instead of re-prompting. -/
theorem C1_choose_move_accepts_nonmatching_strings :
    matches_allowed_code normal_moves "dk" = false ∧
    matches_allowed_code normal_moves "" = false ∧
    move_accepted normal_moves "dk" = true ∧
    move_accepted normal_moves "" = true ∧
    choose_move normal_moves ["dk"] = some "dk" ∧
    choose_move normal_moves [""] = some "" := by
  decide

/-- C4: refuted on the code. The input routine accepts the string "kw"
(a substring of "dkwDKW" matching no move code), and feeding that accepted
move into the standard resolver reaches the dict subscript
`self.normal_rules[p_move]` with a missing key: an uncaught `KeyError`
(modelled by `none`), so the process does not reach the single normal exit
path for every accepted move. -/
theorem C4_accepted_move_crashes_standard_round :
    choose_move normal_moves ["kw"] = some "kw" ∧
    matches_allowed_code normal_moves "kw" = false ∧
    get_round_winner "kw" "d" { name := "Zoe", points := 0 }
      { name := "Sally", points := 0 } 0 = none ∧
    play_standard_round "kw" "d"
      { player := { name := "Zoe", points := 0 },
        sally := { name := "Sally", points := 0 },
        bob := none, tie_points := 0, winner_final := "",
        current_round := 0, rounds_total := 1 } = none := by
  decide

/-- C2 counterexample: the claim quantifies over every choice of the human's
name, but the bonus gate compares the *name string* stored in
`winner_final` with the player's name.  With the human named "Sally" and
the robot Sally ahead 1 to 0, the standard phase is a Sally win, yet the
gate evaluates to true and the bonus phase is entered. -/
theorem C2_sally_named_human_counterexample :
    bonus_phase_entered { name := "Sally", points := 0 }
      { name := "Sally", points := 1 } = true ∧
    ¬ ((0 : Int) > (1 : Int)) := by
  decide

/-- C2 (amended): provided the human's name is neither "Sally" nor
"no one", the bonus phase is entered exactly when the human has strictly
more points than Sally after the standard phase. -/
theorem C2_bonus_gate_iff_human_win (p_name : String) (pp sp : Int)
    (h1 : p_name ≠ "Sally") (h2 : p_name ≠ "no one") :
    bonus_phase_entered { name := p_name, points := pp }
      { name := "Sally", points := sp } = true ↔ pp > sp := by
  unfold bonus_phase_entered get_final_winner_standard
  simp only [beq_iff_eq]
  split_ifs with hs hp
  · exact ⟨fun h => absurd h.symm h1, fun h => absurd h (by omega)⟩
  · exact ⟨fun _ => hp, fun _ => rfl⟩
  · exact ⟨fun h => absurd h.symm h2, fun h => absurd h hp⟩

/-- Witness for C2's amended theorem at name "Alice", points 1 vs 0. -/
theorem C2_bonus_gate_iff_human_win_witness :
    bonus_phase_entered { name := "Alice", points := 1 }
      { name := "Sally", points := 0 } = true :=
  (C2_bonus_gate_iff_human_win "Alice" 1 0 (by decide) (by decide)).mpr
    (by decide)

/-- C3: the three-way bonus final-winner determination declares a
participant exactly when they hold the strict maximum, declares the joint
"Sally and Bob" win exactly when Sally and Bob are tied ahead of the human
(so tied at the maximum and both strictly above the human), and "no one"
in every other configuration. -/
theorem C3_bonus_final_winner_characterization (p_pts s_pts b_pts : Int) :
    (get_final_winner_bonus p_pts s_pts b_pts = .sally ↔
      s_pts > p_pts ∧ s_pts > b_pts) ∧
    (get_final_winner_bonus p_pts s_pts b_pts = .bob ↔
      b_pts > s_pts ∧ b_pts > p_pts) ∧
    (get_final_winner_bonus p_pts s_pts b_pts = .human ↔
      p_pts > s_pts ∧ p_pts > b_pts) ∧
    (get_final_winner_bonus p_pts s_pts b_pts = .sally_and_bob ↔
      s_pts = b_pts ∧ s_pts > p_pts) ∧
    (get_final_winner_bonus p_pts s_pts b_pts = .no_one ↔
      ¬(s_pts > p_pts ∧ s_pts > b_pts) ∧ ¬(b_pts > s_pts ∧ b_pts > p_pts) ∧
      ¬(p_pts > s_pts ∧ p_pts > b_pts) ∧ ¬(s_pts = b_pts ∧ s_pts > p_pts)) := by
  unfold get_final_winner_bonus
  split_ifs <;> simp_all <;> omega

/-- C5: for every pair of moves from the bonus set, exactly one of the five
spec cases applies (counted over the five case guards in their stated
order), and each case produces exactly the stated outcome and point deltas:
human-only druid +2/−2, opponent-only druid −2/+2, both-druid −2/−2 with
the "no one" outcome, equal non-druid moves a tie bumping the shared tie
counter, and otherwise the standard cyclic table deciding the winner, who
gains one point. -/
theorem C5_bonus_resolver_case_analysis (p_move r_move : String)
    (hp : p_move ∈ bonus_moves) (hr : r_move ∈ bonus_moves)
    (player robot : Player) (t : Nat) :
    ([decide (p_move = "r" ∧ r_move ≠ "r"),
      decide (p_move ≠ "r" ∧ r_move = "r"),
      decide (p_move = "r" ∧ r_move = "r"),
      decide (p_move = r_move ∧ p_move ≠ "r"),
      decide (p_move ≠ r_move ∧ p_move ≠ "r" ∧ r_move ≠ "r")].count true
        = 1) ∧
    (p_move = "r" ∧ r_move ≠ "r" →
      (get_bonus_winner p_move r_move player robot t).1 = .human_druid ∧
      (get_bonus_winner p_move r_move player robot t).2.1.points
        = player.points + 2 ∧
      (get_bonus_winner p_move r_move player robot t).2.2.1.points
        = robot.points - 2 ∧
      (get_bonus_winner p_move r_move player robot t).2.2.2 = t) ∧
    (p_move ≠ "r" ∧ r_move = "r" →
      (get_bonus_winner p_move r_move player robot t).1 = .robot_druid ∧
      (get_bonus_winner p_move r_move player robot t).2.1.points
        = player.points - 2 ∧
      (get_bonus_winner p_move r_move player robot t).2.2.1.points
        = robot.points + 2 ∧
      (get_bonus_winner p_move r_move player robot t).2.2.2 = t) ∧
    (p_move = "r" ∧ r_move = "r" →
      (get_bonus_winner p_move r_move player robot t).1 = .both_druid ∧
      (get_bonus_winner p_move r_move player robot t).2.1.points
        = player.points - 2 ∧
      (get_bonus_winner p_move r_move player robot t).2.2.1.points
        = robot.points - 2 ∧
      (get_bonus_winner p_move r_move player robot t).2.2.2 = t) ∧
    (p_move = r_move ∧ p_move ≠ "r" →
      (get_bonus_winner p_move r_move player robot t).1 = .tie ∧
      (get_bonus_winner p_move r_move player robot t).2.1 = player ∧
      (get_bonus_winner p_move r_move player robot t).2.2.1 = robot ∧
      (get_bonus_winner p_move r_move player robot t).2.2.2 = t + 1) ∧
    (p_move ≠ r_move ∧ p_move ≠ "r" ∧ r_move ≠ "r" →
      (normal_rules p_move = some r_move →
        (get_bonus_winner p_move r_move player robot t).1 = .human_win ∧
        (get_bonus_winner p_move r_move player robot t).2.1.points
          = player.points + 1 ∧
        (get_bonus_winner p_move r_move player robot t).2.2.1 = robot ∧
        (get_bonus_winner p_move r_move player robot t).2.2.2 = t) ∧
      (normal_rules p_move ≠ some r_move →
        (get_bonus_winner p_move r_move player robot t).1 = .robot_win ∧
        (get_bonus_winner p_move r_move player robot t).2.1 = player ∧
        (get_bonus_winner p_move r_move player robot t).2.2.1.points
          = robot.points + 1 ∧
        (get_bonus_winner p_move r_move player robot t).2.2.2 = t)) := by
  fin_cases hp <;> fin_cases hr <;>
    refine ⟨by decide, ?_, ?_, ?_, ?_, ?_⟩ <;>
    simp [get_bonus_winner, normal_rules, Player.add_points, sub_eq_add_neg]

/-- Witness for C5 at the concrete pair (druid, dragon): the human-only
druid case fires with its +2 delta. -/
theorem C5_bonus_resolver_case_analysis_witness :
    (get_bonus_winner "r" "d" { name := "Zoe", points := 0 }
      { name := "Sally", points := 0 } 0).1 = BonusOutcome.human_druid ∧
    (get_bonus_winner "r" "d" { name := "Zoe", points := 0 }
      { name := "Sally", points := 0 } 0).2.1.points = 2 := by
  have h := C5_bonus_resolver_case_analysis "r" "d" (by decide) (by decide)
    { name := "Zoe", points := 0 } { name := "Sally", points := 0 } 0
  have h2 := h.2.1 ⟨rfl, by decide⟩
  exact ⟨h2.1, by simpa using h2.2.1⟩

/-- C6: over the standard move set the resolver is total (never hits the
`KeyError` path), equal moves are exactly the ties, a human win on (a, b)
corresponds exactly to an opponent win on the swapped battle (b, a), and a
human win happens exactly when the cyclic table lists a as beating b. -/
theorem C6_standard_resolver_total_symmetric (a b : String)
    (ha : a ∈ normal_moves) (hb : b ∈ normal_moves)
    (player robot : Player) (t : Nat) :
    (get_round_winner a b player robot t).isSome = true ∧
    ((a = b) ↔
      (get_round_winner a b player robot t).map Prod.fst
        = some RoundOutcome.tie) ∧
    ((get_round_winner a b player robot t).map Prod.fst
        = some RoundOutcome.human ↔
      (get_round_winner b a robot player t).map Prod.fst
        = some RoundOutcome.robot) ∧
    ((get_round_winner a b player robot t).map Prod.fst
        = some RoundOutcome.human ↔ normal_rules a = some b) := by
  fin_cases ha <;> fin_cases hb <;>
    simp [get_round_winner, normal_rules]

/-- Witness for C6 at the concrete pair (dragon, knight). -/
theorem C6_standard_resolver_total_symmetric_witness :
    (get_round_winner "d" "k" { name := "Zoe", points := 0 }
      { name := "Sally", points := 0 } 0).map Prod.fst
        = some RoundOutcome.human ↔
    (get_round_winner "k" "d" { name := "Sally", points := 0 }
      { name := "Zoe", points := 0 } 0).map Prod.fst
        = some RoundOutcome.robot :=
  (C6_standard_resolver_total_symmetric "d" "k" (by decide) (by decide)
    { name := "Zoe", points := 0 } { name := "Sally", points := 0 } 0).2.2.1

/-- C7: for moves from the allowed set, a standard battle either bumps the
tie counter (leaving both totals alone) or raises exactly the winner's
total by one; a bonus battle changes totals only by ±2 in the druid cases
(tie counter untouched), by +1 to the winner with the other total and the
tie counter untouched in the standard-pattern cases, and bumps the tie
counter exactly on equal non-druid moves. -/
theorem C7_point_delta_invariants :
    (∀ a b, a ∈ normal_moves → b ∈ normal_moves →
      ∀ (pl ro : Player) (t : Nat), ∃ res,
      get_round_winner a b pl ro t = some res ∧
      ((res.1 = RoundOutcome.tie ∧ res.2.1 = pl ∧ res.2.2.1 = ro ∧
          res.2.2.2 = t + 1) ∨
       (res.1 = RoundOutcome.human ∧ res.2.1.points = pl.points + 1 ∧
          res.2.1.name = pl.name ∧ res.2.2.1 = ro ∧ res.2.2.2 = t) ∨
       (res.1 = RoundOutcome.robot ∧ res.2.1 = pl ∧
          res.2.2.1.points = ro.points + 1 ∧ res.2.2.1.name = ro.name ∧
          res.2.2.2 = t))) ∧
    (∀ a b, a ∈ bonus_moves → b ∈ bonus_moves →
      ∀ (pl ro : Player) (t : Nat),
      ((a = "r" ∨ b = "r") →
        ((get_bonus_winner a b pl ro t).2.1.points = pl.points + 2 ∨
          (get_bonus_winner a b pl ro t).2.1.points = pl.points - 2) ∧
        ((get_bonus_winner a b pl ro t).2.2.1.points = ro.points + 2 ∨
          (get_bonus_winner a b pl ro t).2.2.1.points = ro.points - 2) ∧
        (get_bonus_winner a b pl ro t).2.2.2 = t) ∧
      (a ≠ "r" ∧ b ≠ "r" ∧ a ≠ b →
        (((get_bonus_winner a b pl ro t).2.1.points = pl.points + 1 ∧
            (get_bonus_winner a b pl ro t).2.2.1 = ro) ∨
         ((get_bonus_winner a b pl ro t).2.1 = pl ∧
            (get_bonus_winner a b pl ro t).2.2.1.points = ro.points + 1)) ∧
        (get_bonus_winner a b pl ro t).2.2.2 = t) ∧
      (a ≠ "r" ∧ a = b →
        (get_bonus_winner a b pl ro t).2.1 = pl ∧
        (get_bonus_winner a b pl ro t).2.2.1 = ro ∧
        (get_bonus_winner a b pl ro t).2.2.2 = t + 1)) := by
  constructor
  · intro a b ha hb pl ro t
    fin_cases ha <;> fin_cases hb <;>
      exact ⟨_, rfl, by simp [get_round_winner, normal_rules,
        Player.add_points]⟩
  · intro a b ha hb pl ro t
    fin_cases ha <;> fin_cases hb <;>
      refine ⟨?_, ?_, ?_⟩ <;>
      simp [get_bonus_winner, normal_rules, Player.add_points, sub_eq_add_neg]

/-- Witness for C7 at the standard pair (dragon, knight) and the bonus
pair (druid, druid). -/
theorem C7_point_delta_invariants_witness :
    (∃ res, get_round_winner "d" "k" { name := "Zoe", points := 0 }
        { name := "Sally", points := 0 } 0 = some res ∧
      res.2.1.points = 1) ∧
    (get_bonus_winner "r" "r" { name := "Zoe", points := 0 }
      { name := "Sally", points := 0 } 0).2.2.2 = 0 := by
  constructor
  · obtain ⟨res, h1, -⟩ :=
      (C7_point_delta_invariants.1 "d" "k" (by decide) (by decide)
        { name := "Zoe", points := 0 } { name := "Sally", points := 0 } 0)
    have h2 : get_round_winner "d" "k" { name := "Zoe", points := 0 }
        { name := "Sally", points := 0 } 0
          = some (RoundOutcome.human, { name := "Zoe", points := 1 },
            { name := "Sally", points := 0 }, 0) := by decide
    rw [h1] at h2
    exact ⟨res, h1, by rw [Option.some.inj h2]⟩
  · exact ((C7_point_delta_invariants.2 "r" "r" (by decide) (by decide)
      { name := "Zoe", points := 0 } { name := "Sally", points := 0 } 0).1
        (Or.inl rfl)).2.2

/-- C8: the round-count prompt rejects "0", "-5", "abc" and "" (still
looping after all four), accepts "3" after them; any returned value is a
positive integer; a `ValueError` entry or a non-positive entry leaves the
loop exactly where it was; and a script of N valid rounds drives the round
counter up by exactly N (one loop iteration per round). -/
theorem C8_round_count_validation :
    get_num_rounds ["0", "-5", "abc", ""] = none ∧
    get_num_rounds ["0", "-5", "abc", "", "3"] = some 3 ∧
    (∀ (inputs : List String) (n : Int),
      get_num_rounds inputs = some n → 0 < n) ∧
    (∀ s, python_int s = none →
      ∀ rest, get_num_rounds (s :: rest) = get_num_rounds rest) ∧
    (∀ s n, python_int s = some n → ¬ 0 < n →
      ∀ rest, get_num_rounds (s :: rest) = get_num_rounds rest) ∧
    (∀ (moves : List (String × String)),
      (∀ m ∈ moves, m.1 ∈ normal_moves ∧ m.2 ∈ normal_moves) →
      ∀ st : GameState, ∃ st2, run_standard_rounds moves st = some st2 ∧
        st2.current_round = st.current_round + moves.length) := by
  refine ⟨by decide, by decide, get_num_rounds_pos, ?_, ?_, ?_⟩
  · intro s hs rest
    simp only [get_num_rounds, hs]
  · intro s n hs hn rest
    simp only [get_num_rounds, hs, if_neg (show ¬n > 0 from hn)]
  · intro moves hmem st
    obtain ⟨st2, h1, h2, -⟩ := run_standard_rounds_spec moves hmem st
    exact ⟨st2, h1, h2⟩

/-- Witness for C8: a three-entry script of valid moves yields exactly
three round iterations. -/
theorem C8_round_count_validation_witness :
    ∃ st2, run_standard_rounds [("d", "k"), ("w", "w"), ("k", "k")]
      { player := { name := "Zoe", points := 0 },
        sally := { name := "Sally", points := 0 }, bob := none,
        tie_points := 0, winner_final := "", current_round := 0,
        rounds_total := 3 } = some st2 ∧
      st2.current_round = 0 + [("d", "k"), ("w", "w"), ("k", "k")].length :=
  C8_round_count_validation.2.2.2.2.2
    [("d", "k"), ("w", "w"), ("k", "k")] (by decide) _

/-- C9: whatever the state at the end of the standard phase, the bonus
setup zeroes the human's and Sally's points and the tie counter, creates
Bob with zero points, takes its round total (a positive integer) from the
fresh prompt alone, restarts the round index, and leaves both names and
the recorded final winner untouched. -/
theorem C9_bonus_setup_frame (st : GameState) (round_inputs : List String)
    (n : Int) (st2 : GameState)
    (hn : get_num_rounds round_inputs = some n)
    (h : run_bonus_setup st round_inputs = some st2) :
    st2.player.points = 0 ∧ st2.sally.points = 0 ∧ st2.tie_points = 0 ∧
    st2.bob = some { name := "Bob", points := 0 } ∧
    st2.rounds_total = n ∧ 0 < st2.rounds_total ∧
    st2.player.name = st.player.name ∧ st2.sally.name = st.sally.name ∧
    st2.winner_final = st.winner_final ∧ st2.current_round = 0 := by
  unfold run_bonus_setup at h
  rw [hn] at h
  obtain rfl := Option.some.inj h
  exact ⟨rfl, rfl, rfl, rfl, rfl, get_num_rounds_pos _ _ hn, rfl, rfl, rfl,
    rfl⟩

/-- Witness for C9 on a concrete end-of-standard-phase state and the
round-count entry "4". -/
theorem C9_bonus_setup_frame_witness :
    ∃ st2, run_bonus_setup
      { player := { name := "Zoe", points := 3 },
        sally := { name := "Sally", points := 1 }, bob := none,
        tie_points := 2, winner_final := "Zoe", current_round := 5,
        rounds_total := 5 } ["4"] = some st2 ∧
      st2.player.points = 0 ∧ st2.tie_points = 0 ∧
      st2.bob = some { name := "Bob", points := 0 } ∧
      st2.rounds_total = 4 ∧ st2.winner_final = "Zoe" := by
  have h := C9_bonus_setup_frame
    { player := { name := "Zoe", points := 3 },
      sally := { name := "Sally", points := 1 }, bob := none,
      tie_points := 2, winner_final := "Zoe", current_round := 5,
      rounds_total := 5 } ["4"] 4
    { player := { name := "Zoe", points := 0 },
      sally := { name := "Sally", points := 0 },
      bob := some { name := "Bob", points := 0 },
      tie_points := 0, winner_final := "Zoe", current_round := 0,
      rounds_total := 4 } (by decide) (by decide)
  exact ⟨_, by decide, h.1, h.2.2.1, h.2.2.2.1, h.2.2.2.2.1,
    h.2.2.2.2.2.2.2.2.1⟩

/-- C10: a standard round on moves from the allowed set increments exactly
one of the three counters (human points, Sally points, tie counter) by
exactly one, and a standard phase of n such rounds started from zeroed
counters ends with the three counters summing to n. -/
theorem C10_standard_phase_conservation :
    (∀ a b, a ∈ normal_moves → b ∈ normal_moves → ∀ st : GameState,
      ∃ st2, play_standard_round a b st = some st2 ∧
        ((st2.player.points = st.player.points + 1 ∧
            st2.sally.points = st.sally.points ∧
            st2.tie_points = st.tie_points) ∨
         (st2.player.points = st.player.points ∧
            st2.sally.points = st.sally.points + 1 ∧
            st2.tie_points = st.tie_points) ∨
         (st2.player.points = st.player.points ∧
            st2.sally.points = st.sally.points ∧
            st2.tie_points = st.tie_points + 1))) ∧
    (∀ (moves : List (String × String)),
      (∀ m ∈ moves, m.1 ∈ normal_moves ∧ m.2 ∈ normal_moves) →
      ∀ st : GameState, st.player.points = 0 → st.sally.points = 0 →
        st.tie_points = 0 →
      ∃ st2, run_standard_rounds moves st = some st2 ∧
        st2.player.points + st2.sally.points + (st2.tie_points : Int)
          = moves.length) := by
  constructor
  · intro a b ha hb st
    obtain ⟨st2, h1, -, -, -, -, -, -, hd⟩ :=
      play_standard_round_spec a b ha hb st
    exact ⟨st2, h1, hd⟩
  · intro moves hmem st hp hs ht
    obtain ⟨st2, h1, -, hsum, -⟩ := run_standard_rounds_spec moves hmem st
    refine ⟨st2, h1, ?_⟩
    rw [hp, hs, ht] at hsum
    simpa using hsum

/-- Witness for C10: two rounds (a human win and a tie) from zeroed
counters sum to two. -/
theorem C10_standard_phase_conservation_witness :
    ∃ st2, run_standard_rounds [("d", "k"), ("w", "w")]
      { player := { name := "Zoe", points := 0 },
        sally := { name := "Sally", points := 0 }, bob := none,
        tie_points := 0, winner_final := "", current_round := 0,
        rounds_total := 2 } = some st2 ∧
      st2.player.points + st2.sally.points + (st2.tie_points : Int) = 2 := by
  have h := C10_standard_phase_conservation.2 [("d", "k"), ("w", "w")]
    (by decide)
    { player := { name := "Zoe", points := 0 },
      sally := { name := "Sally", points := 0 }, bob := none,
      tie_points := 0, winner_final := "", current_round := 0,
      rounds_total := 2 } rfl rfl rfl
  simpa using h
